import Mathlib

/-!
Verification development for the ccusage menu-bar utility
(src/src-tauri/src/lib.rs).  The data model and the operations of the
usage-fetching pipeline are embedded shallowly: the serde structs become
Lean structures, JSON values become an inductive type, the serde derive
semantics become explicit decoders, and the scheduler state becomes an
explicit state record.  Machine floats (f64 cost values) are modelled as
rationals; u64 token counts are modelled as naturals with the u64 range
check in the decoder.
-/

/-- Mirrors struct TokenCounts (lib.rs lines 28-38): four u64 token counters. -/
structure TokenCounts where
  input_tokens : Nat
  output_tokens : Nat
  cache_creation_input_tokens : Nat
  cache_read_input_tokens : Nat
deriving DecidableEq

/-- Mirrors struct BlockData (lib.rs lines 12-26): one session-window summary. -/
structure BlockData where
  id : String
  start_time : String
  end_time : String
  is_active : Bool
  token_counts : TokenCounts
  cost_usd : ℚ
  models : List String
deriving DecidableEq

/-- Mirrors struct ModelStats (lib.rs lines 50-54): optional isFallback flag. -/
structure ModelStats where
  is_fallback : Option Bool
deriving DecidableEq

/-- Mirrors struct DailyEntry (lib.rs lines 56-70).  The HashMap of models is
modelled as an association list in decode order; the map's iteration order is
not observable downstream because daily_to_block sorts the keys. -/
structure DailyEntry where
  date : String
  input_tokens : Nat
  cached_input_tokens : Nat
  output_tokens : Nat
  total_tokens : Nat
  cost_usd : ℚ
  models : List (String × ModelStats)
deriving DecidableEq

/-- Mirrors struct DailyResponse (lib.rs lines 72-75). -/
structure DailyResponse where
  daily : List DailyEntry
deriving DecidableEq

/-- Mirrors struct SessionsResponse (lib.rs lines 45-48). -/
structure SessionsResponse where
  sessions : List BlockData
deriving DecidableEq

/-- Mirrors struct BlocksResponse (lib.rs lines 40-43). -/
structure BlocksResponse where
  blocks : List BlockData
deriving DecidableEq

/-- JSON values, as produced by parsing the external tool's stdout.  Numbers
are modelled as rationals (an integral rational models a JSON integer
literal). -/
inductive Json where
  | null : Json
  | bool (b : Bool) : Json
  | num (q : ℚ) : Json
  | str (s : String) : Json
  | arr (elems : List Json) : Json
  | obj (fields : List (String × Json)) : Json

/-- Field access on a JSON object (serde looks fields up by name and ignores
unknown fields; a non-object never deserializes into a struct). -/
def getField : Json → String → Option Json
  | Json.obj fs, k => fs.lookup k
  | _, _ => none

/-- serde deserialization of a String field. -/
def asStr : Json → Option String
  | Json.str s => some s
  | _ => none

/-- serde deserialization of a bool field. -/
def asBool : Json → Option Bool
  | Json.bool b => some b
  | _ => none

/-- serde deserialization of a u64 field: a non-negative integral JSON number
below 2^64. -/
def asU64 : Json → Option Nat
  | Json.num q =>
    if q.den = 1 ∧ 0 ≤ q.num ∧ q.num < 18446744073709551616 then some q.num.toNat
    else none
  | _ => none

/-- serde deserialization of an f64 field (any JSON number). -/
def asF64 : Json → Option ℚ
  | Json.num q => some q
  | _ => none

/-- serde deserialization of a JSON array. -/
def asArr : Json → Option (List Json)
  | Json.arr xs => some xs
  | _ => none

/-- Decoder for TokenCounts with its serde rename attributes. -/
def decodeTokenCounts (j : Json) : Option TokenCounts := do
  let it ← getField j ("inputTokens") >>= asU64
  let ot ← getField j ("outputTokens") >>= asU64
  let cc ← getField j ("cacheCreationInputTokens") >>= asU64
  let cr ← getField j ("cacheReadInputTokens") >>= asU64
  some ⟨it, ot, cc, cr⟩

/-- Decoder for BlockData with its serde rename attributes. -/
def decodeBlockData (j : Json) : Option BlockData := do
  let id ← getField j ("id") >>= asStr
  let st ← getField j ("startTime") >>= asStr
  let et ← getField j ("endTime") >>= asStr
  let ia ← getField j ("isActive") >>= asBool
  let tc ← getField j ("tokenCounts") >>= decodeTokenCounts
  let cost ← getField j ("costUSD") >>= asF64
  let ms ← getField j ("models") >>= asArr >>= (fun xs => xs.mapM asStr)
  some ⟨id, st, et, ia, tc, cost, ms⟩

/-- Decoder for ModelStats: the isFallback field is optional (Option in Rust),
so a missing field or a JSON null decodes to none. -/
def decodeModelStats (j : Json) : Option ModelStats :=
  match j with
  | Json.obj fs =>
    match fs.lookup ("isFallback") with
    | none => some ⟨none⟩
    | some (Json.bool b) => some ⟨some b⟩
    | some Json.null => some ⟨none⟩
    | some _ => none
  | _ => none

/-- Decoder for DailyEntry with its serde rename attributes. -/
def decodeDailyEntry (j : Json) : Option DailyEntry := do
  let date ← getField j ("date") >>= asStr
  let it ← getField j ("inputTokens") >>= asU64
  let ci ← getField j ("cachedInputTokens") >>= asU64
  let ot ← getField j ("outputTokens") >>= asU64
  let tt ← getField j ("totalTokens") >>= asU64
  let cost ← getField j ("costUSD") >>= asF64
  let msJson ← getField j ("models")
  let ms ← match msJson with
    | Json.obj fs => fs.mapM (fun kv => (decodeModelStats kv.2).map (fun st => (kv.1, st)))
    | _ => none
  some ⟨date, it, ci, ot, tt, cost, ms⟩

/-- Decoder for DailyResponse. -/
def decodeDailyResponse (j : Json) : Option DailyResponse := do
  let entries ← getField j ("daily") >>= asArr >>= (fun xs => xs.mapM decodeDailyEntry)
  some ⟨entries⟩

/-- Decoder for SessionsResponse. -/
def decodeSessionsResponse (j : Json) : Option SessionsResponse := do
  let blocks ← getField j ("sessions") >>= asArr >>= (fun xs => xs.mapM decodeBlockData)
  some ⟨blocks⟩

/-- Decoder for BlocksResponse. -/
def decodeBlocksResponse (j : Json) : Option BlocksResponse := do
  let blocks ← getField j ("blocks") >>= asArr >>= (fun xs => xs.mapM decodeBlockData)
  some ⟨blocks⟩

/-- Decoder for a bare JSON array of blocks (serde Vec of BlockData). -/
def decodeVecBlockData (j : Json) : Option (List BlockData) :=
  asArr j >>= (fun xs => xs.mapM decodeBlockData)

/-- Boolean substring test, modelling Rust str contains (lib.rs fallback arms
of format_model_name): pat occurs contiguously inside s. -/
def strContains (s pat : String) : Bool :=
  (List.range (s.data.length + 1)).any fun i =>
    ((s.data.drop i).take pat.data.length) == pat.data

/-- Mirrors fn format_model_name (lib.rs lines 122-146): an exact-match table,
then substring fallbacks, then the raw identifier. -/
def format_model_name (m : String) : String :=
  if m = ("claude-opus-4-20250514") then ("Opus 4")
  else if m = ("claude-sonnet-4-20250514") then ("Sonnet 4")
  else if m = ("claude-3-5-sonnet-20241022") then ("Sonnet 3.5")
  else if m = ("claude-3-haiku-20240307") then ("Haiku")
  else if m = ("gpt-5-codex") then ("GPT-5 Codex")
  else if m = ("gpt-5") then ("GPT-5")
  else if strContains m ("opus") then ("Opus")
  else if strContains m ("sonnet") then ("Sonnet")
  else if strContains m ("haiku") then ("Haiku")
  else if strContains m ("gpt-5-codex") then ("GPT-5 Codex")
  else if m = ("gpt-5") then ("GPT-5")
  else m

/-- Mirrors fn daily_to_block (lib.rs lines 77-100): converts an aggregated
daily entry into the BlockData shape used by the UI.  Vec sort on Strings is
the unique ascending reordering, modelled by insertionSort over the
lexicographic order on String. -/
def daily_to_block (e : DailyEntry) : BlockData :=
  ⟨"daily-" ++ e.date, "", "", true,
   ⟨e.input_tokens, e.output_tokens, 0, e.cached_input_tokens⟩,
   e.cost_usd,
   List.insertionSort (fun a b => a ≤ b) (e.models.map Prod.fst)⟩

/-- Mirrors the zero DailyEntry synthesized at lib.rs lines 190-198 when no
daily entry matches today's date. -/
def zero_daily (today : String) : DailyEntry :=
  ⟨today, 0, 0, 0, 0, 0, []⟩

/-- Mirrors the daily-schema branch of fetch_session_data (lib.rs lines
183-202): prefer the entry whose date equals today's formatted date, else
show a zero entry for today. -/
def daily_branch (today : String) (r : DailyResponse) : BlockData :=
  match r.daily.find? (fun d => d.date == today) with
  | some e => daily_to_block e
  | none => daily_to_block (zero_daily today)

/-- Mirrors the block-selection expression used in the sessions, blocks and
bare-array branches of fetch_session_data (lib.rs lines 203-226): the first
block whose is_active flag is set. -/
def select_active (blocks : List BlockData) : Option BlockData :=
  blocks.find? (fun b => b.is_active)

/-- Mirrors the schema cascade inside fetch_session_data (lib.rs lines
182-230), applied to one invocation's stdout.  The argument is the parsed
stdout (none when stdout is not valid JSON, in which case every serde attempt
fails).  Result none means no recognized schema parsed (the loop continues
with the next invocation); result (some ob) means the fetch returns (ob, true). -/
def parse_known_schemas (today : String) (stdout : Option Json) : Option (Option BlockData) :=
  match stdout with
  | none => none
  | some j =>
    match decodeDailyResponse j with
    | some r => some (some (daily_branch today r))
    | none =>
      match decodeSessionsResponse j with
      | some r => some (select_active r.sessions)
      | none =>
        match decodeBlocksResponse j with
        | some r => some (select_active r.blocks)
        | none =>
          match decodeBlockData j with
          | some b => some (some b)
          | none =>
            match decodeVecBlockData j with
            | some l => some (select_active l)
            | none => none

/-- Outcome of one attempted external-tool invocation: the process could not
be spawned, it exited non-zero, or it succeeded with some stdout (modelled as
parsed JSON, or none when stdout is not valid JSON). -/
inductive CmdOutcome where
  | spawnError : CmdOutcome
  | exitNonZero : CmdOutcome
  | success (stdout : Option Json) : CmdOutcome

/-- Mirrors fn fetch_session_data (lib.rs lines 148-246): the shell commands
are tried in order; a spawn error, a non-zero exit, or an unrecognized payload
makes the loop continue; the first invocation whose stdout parses returns
(block, true); exhausting every invocation returns (none, false). -/
def fetch_session_data (today : String) : List CmdOutcome → Option BlockData × Bool
  | [] => (none, false)
  | o :: rest =>
    match o with
    | CmdOutcome.spawnError => fetch_session_data today rest
    | CmdOutcome.exitNonZero => fetch_session_data today rest
    | CmdOutcome.success stdout =>
      match parse_known_schemas today stdout with
      | some ob => (ob, true)
      | none => fetch_session_data today rest

/-- Mirrors struct SessionData (lib.rs lines 103-108); Instant is modelled as
a natural-number timestamp. -/
structure SessionData where
  active_block : Option BlockData
  last_updated : Option Nat
  ccusage_available : Bool
deriving DecidableEq

/-- Scheduler-visible state: the mutex-guarded SESSION_CACHE (lib.rs line 110)
plus the IS_REFRESHING flag (lib.rs line 118). -/
structure AppState where
  cache : SessionData
  is_refreshing : Bool
deriving DecidableEq

/-- Mirrors fn refresh_session_data (lib.rs lines 334-370) as one completed
big step: the flag is raised, the fetch runs with the given invocation
outcomes, the cache is overwritten with the fetch result and the completion
time, and the flag is cleared. -/
def refresh_session_data (today : String) (outcomes : List CmdOutcome) (now : Nat)
    (_st : AppState) : AppState :=
  let r := fetch_session_data today outcomes
  ⟨⟨r.1, some now, r.2⟩, false⟩

/-- The three refresh triggers of the scheduler. -/
inductive Trigger where
  | timer_tick : Trigger
  | user_refresh : Trigger
  | startup : Trigger

/-- Whether a trigger starts a fetch in the given state.  The periodic task
(lib.rs lines 506-521) checks the IS_REFRESHING flag and that last_updated is
set; the menu refresh handler (lib.rs lines 564-577) and the startup task
(lib.rs lines 523-525) call refresh_session_data unconditionally. -/
def trigger_starts_fetch (st : AppState) : Trigger → Bool
  | Trigger.timer_tick => !st.is_refreshing && st.cache.last_updated.isSome
  | Trigger.user_refresh => true
  | Trigger.startup => true

/-- Modelled from the spec: ModelBreakdown, one model's contribution within a
reporting bucket (model identifier, four token counters, cost in USD).  The
src/ variant of the repository does not define this struct; it appears only
in the specification's data model (section 3). -/
structure ModelBreakdown where
  model : String
  input_tokens : Nat
  output_tokens : Nat
  cache_creation_tokens : Nat
  cache_read_tokens : Nat
  cost : ℚ
deriving DecidableEq

/-- Modelled from the spec: ReportingBucket, one unit of external data
carrying zero or more ModelBreakdowns.  Only the breakdown list participates
in aggregation, so the bucket's own totals and time range are omitted. -/
structure ReportingBucket where
  breakdowns : List ModelBreakdown
deriving DecidableEq

/-- Modelled from the spec: the Adapter's estimated breakdown for a block that
carries no per-model breakdown (spec section 4.1): total cost and total token
counts are divided evenly across the models listed for the block — rational
division for the f64 cost, truncating natural division for the u64 token
counts.  This estimation code is absent from the src/ variant. -/
def estimate_breakdown (b : BlockData) : List ModelBreakdown :=
  let n := b.models.length
  b.models.map fun m =>
    ⟨m, b.token_counts.input_tokens / n, b.token_counts.output_tokens / n,
     b.token_counts.cache_creation_input_tokens / n,
     b.token_counts.cache_read_input_tokens / n,
     b.cost_usd / (n : ℚ)⟩

/-- Pointwise merge of two breakdowns for the same model: the left operand's
identifier is kept and the numeric fields are added. -/
def mergeMB (a b : ModelBreakdown) : ModelBreakdown :=
  ⟨a.model, a.input_tokens + b.input_tokens, a.output_tokens + b.output_tokens,
   a.cache_creation_tokens + b.cache_creation_tokens,
   a.cache_read_tokens + b.cache_read_tokens, a.cost + b.cost⟩

/-- One step of the aggregation fold: merge a breakdown into the association
list keyed by model identifier, inserting a fresh entry when the model is not
yet present. -/
def addEntry : List (String × ModelBreakdown) → ModelBreakdown → List (String × ModelBreakdown)
  | [], e => [(e.model, e)]
  | (k, v) :: rest, e =>
    if k = e.model then (k, mergeMB v e) :: rest else (k, v) :: addEntry rest e

/-- All breakdown entries of a bucket sequence, in bucket order. -/
def flat_entries (bs : List ReportingBucket) : List ModelBreakdown :=
  (bs.map fun b => b.breakdowns).flatten

/-- Modelled from the spec: the Aggregator (spec section 4.2), folding every
breakdown of every bucket into one association list from model identifier to
cumulative ModelBreakdown.  This component is absent from the src/ variant
(its week/blocks aggregation paths were removed). -/
def aggregate (bs : List ReportingBucket) : List (String × ModelBreakdown) :=
  (flat_entries bs).foldl addEntry []

/-- The arithmetic sums the spec promises for one model: componentwise sums of
the given entries, labelled with the model identifier. -/
def sumFor (m : String) (es : List ModelBreakdown) : ModelBreakdown :=
  ⟨m, (es.map fun e => e.input_tokens).sum, (es.map fun e => e.output_tokens).sum,
   (es.map fun e => e.cache_creation_tokens).sum,
   (es.map fun e => e.cache_read_tokens).sum,
   (es.map fun e => e.cost).sum⟩

/-- Accumulator view of the aggregation fold restricted to a single model:
merge the entries one by one into an optional running total. -/
def foldStep : Option ModelBreakdown → List ModelBreakdown → Option ModelBreakdown
  | o, [] => o
  | o, e :: rest => foldStep (some (o.elim e (fun v => mergeMB v e))) rest

/-- The schema cascade as the amended claim C3 describes it: an ordered list
of parse attempts, tried until the first succeeds.  Order as in the source:
daily object, sessions object, blocks object, bare block, bare array. -/
def schema_attempts (today : String) : List (Json → Option (Option BlockData)) :=
  [fun j => (decodeDailyResponse j).map (fun r => some (daily_branch today r)),
   fun j => (decodeSessionsResponse j).map (fun r => select_active r.sessions),
   fun j => (decodeBlocksResponse j).map (fun r => select_active r.blocks),
   fun j => (decodeBlockData j).map (fun b => some b),
   fun j => (decodeVecBlockData j).map (fun l => select_active l)]

/-- First successful result of a list of parse attempts on one input. -/
def firstSome : List (Json → Option (Option BlockData)) → Json → Option (Option BlockData)
  | [], _ => none
  | f :: fs, j =>
    match f j with
    | some r => some r
    | none => firstSome fs j

/-- The exact-match table of claim C9, as written in the source's match arms
(lib.rs lines 124-129). -/
def exact_table : List (String × String) :=
  [("claude-opus-4-20250514", "Opus 4"),
   ("claude-sonnet-4-20250514", "Sonnet 4"),
   ("claude-3-5-sonnet-20241022", "Sonnet 3.5"),
   ("claude-3-haiku-20240307", "Haiku"),
   ("gpt-5-codex", "GPT-5 Codex"),
   ("gpt-5", "GPT-5")]

/-- Bool test that every attempted invocation failed: the process did not
start, exited non-zero, or produced stdout that no recognized schema parses. -/
def attempt_failed (today : String) (o : CmdOutcome) : Bool :=
  match o with
  | CmdOutcome.spawnError => true
  | CmdOutcome.exitNonZero => true
  | CmdOutcome.success stdout => (parse_known_schemas today stdout).isNone

theorem fetch_session_data_all_failed (today : String) :
    ∀ outcomes : List CmdOutcome, outcomes.all (attempt_failed today) = true →
      fetch_session_data today outcomes = (none, false) := by
  intro outcomes
  induction outcomes with
  | nil => intro _; rfl
  | cons o rest ih =>
    intro h
    rw [List.all_cons, Bool.and_eq_true] at h
    obtain ⟨ho, hrest⟩ := h
    cases o with
    | spawnError => simpa [fetch_session_data] using ih hrest
    | exitNonZero => simpa [fetch_session_data] using ih hrest
    | success stdout =>
      rw [attempt_failed, Option.isNone_iff_eq_none] at ho
      simp only [fetch_session_data, ho]
      exact ih hrest

theorem find?_first_decomp {α : Type} (p : α → Bool) :
    ∀ (l : List α) (b : α), l.find? p = some b →
      p b = true ∧ ∃ pre post, l = pre ++ b :: post ∧ ∀ x ∈ pre, p x = false := by
  intro l
  induction l with
  | nil => intro b h; simp [List.find?] at h
  | cons a rest ih =>
    intro b h
    by_cases ha : p a = true
    · rw [List.find?_cons_of_pos rest ha] at h
      obtain rfl : a = b := by injection h
      exact ⟨ha, [], rest, rfl, by simp⟩
    · have ha2 : p a = false := by simpa using ha
      rw [List.find?_cons_of_neg rest (by simp [ha2])] at h
      obtain ⟨hb, pre, post, hsplit, hpre⟩ := ih b h
      refine ⟨hb, a :: pre, post, by simp [hsplit], ?_⟩
      intro x hx
      rcases List.mem_cons.mp hx with hxa | hx
      · rw [hxa]; exact ha2
      · exact hpre x hx

theorem lookup_addEntry (m : String) (e : ModelBreakdown) :
    ∀ acc : List (String × ModelBreakdown),
      (addEntry acc e).lookup m =
        if e.model = m then some ((acc.lookup m).elim e (fun v => mergeMB v e))
        else acc.lookup m := by
  intro acc
  induction acc with
  | nil =>
    by_cases h : e.model = m
    · have hb : (m == e.model) = true := by simp [h]
      simp [addEntry, List.lookup, hb, h]
    · have hb : (m == e.model) = false := by
        rw [beq_eq_false_iff_ne]
        exact fun hc => h hc.symm
      simp [addEntry, List.lookup, hb, h]
  | cons kv rest ih =>
    obtain ⟨k, v⟩ := kv
    by_cases hk : k = e.model
    · by_cases hm : k = m
      · have hb : (m == k) = true := by simp [hm]
        have hem : e.model = m := hk.symm.trans hm
        simp [addEntry, hk, List.lookup, hb, hem]
      · have hb : (m == k) = false := by
          rw [beq_eq_false_iff_ne]
          exact fun hc => hm hc.symm
        have hem : e.model ≠ m := fun hc => hm (hk.trans hc)
        have hb2 : (m == e.model) = false := by
          rw [beq_eq_false_iff_ne]
          exact fun hc => hem hc.symm
        simp [addEntry, hk, List.lookup, hb, hb2, hem]
    · by_cases hm : k = m
      · have hb : (m == k) = true := by simp [hm]
        have hem : e.model ≠ m := fun hc => hk (hm.trans hc.symm)
        simp [addEntry, hk, List.lookup, hb, hem]
      · have hb : (m == k) = false := by
          rw [beq_eq_false_iff_ne]
          exact fun hc => hm hc.symm
        simp [addEntry, hk, List.lookup, hb, ih]

theorem lookup_foldl (m : String) :
    ∀ (es : List ModelBreakdown) (acc : List (String × ModelBreakdown)),
      (es.foldl addEntry acc).lookup m =
        foldStep (acc.lookup m) (es.filter fun e => e.model == m) := by
  intro es
  induction es with
  | nil => intro acc; rfl
  | cons e rest ih =>
    intro acc
    rw [List.foldl_cons, List.filter_cons, ih, lookup_addEntry]
    by_cases h : e.model = m
    · simp [h, foldStep]
    · simp [h, foldStep]

theorem foldStep_some : ∀ (es : List ModelBreakdown) (v : ModelBreakdown),
    foldStep (some v) es = some (es.foldl mergeMB v) := by
  intro es
  induction es with
  | nil => intro v; rfl
  | cons e rest ih => intro v; simpa [foldStep] using ih (mergeMB v e)

theorem foldl_mergeMB_spec : ∀ (es : List ModelBreakdown) (v : ModelBreakdown),
    es.foldl mergeMB v =
      ⟨v.model, v.input_tokens + (es.map fun e => e.input_tokens).sum,
       v.output_tokens + (es.map fun e => e.output_tokens).sum,
       v.cache_creation_tokens + (es.map fun e => e.cache_creation_tokens).sum,
       v.cache_read_tokens + (es.map fun e => e.cache_read_tokens).sum,
       v.cost + (es.map fun e => e.cost).sum⟩ := by
  intro es
  induction es with
  | nil => intro v; cases v; simp
  | cons e rest ih =>
    intro v
    rw [List.foldl_cons, ih (mergeMB v e)]
    simp [mergeMB, add_assoc]

theorem aggregate_lookup_eq (bs : List ReportingBucket) (m : String) :
    (aggregate bs).lookup m =
      if ((flat_entries bs).filter fun e => e.model == m) = [] then none
      else some (sumFor m ((flat_entries bs).filter fun e => e.model == m)) := by
  rw [aggregate, lookup_foldl]
  cases hf : (flat_entries bs).filter (fun e => e.model == m) with
  | nil => simp [foldStep]
  | cons e rest =>
    have hmem : e ∈ (flat_entries bs).filter (fun x => x.model == m) := by
      rw [hf]; exact List.mem_cons_self e rest
    have he : e.model = m := by
      have h2 := (List.mem_filter.mp hmem).2
      simpa [beq_iff_eq] using h2
    have hne : e :: rest ≠ ([] : List ModelBreakdown) := by simp
    simp only [List.lookup, foldStep, Option.elim, foldStep_some, hne, if_neg]
    rw [foldl_mergeMB_spec, sumFor]
    simp [he]

/-- A minimal valid block JSON document used in concrete inputs. -/
def mk_block_json (id : String) (cost : ℚ) (active : Bool) : Json :=
  Json.obj [("id", Json.str id), ("startTime", Json.str ("")), ("endTime", Json.str ("")),
    ("isActive", Json.bool active),
    ("tokenCounts", Json.obj [("inputTokens", Json.num 1), ("outputTokens", Json.num 2),
      ("cacheCreationInputTokens", Json.num 0), ("cacheReadInputTokens", Json.num 0)]),
    ("costUSD", Json.num cost), ("models", Json.arr [])]

/-- The BlockData value that mk_block_json decodes to. -/
def mk_block (id : String) (cost : ℚ) (active : Bool) : BlockData :=
  ⟨id, "", "", active, ⟨1, 2, 0, 0⟩, cost, []⟩

/-- A minimal daily-entry JSON document with an empty models map. -/
def mk_daily_json (date : String) (cost : ℚ) : Json :=
  Json.obj [("date", Json.str date), ("inputTokens", Json.num 10),
    ("cachedInputTokens", Json.num 3), ("outputTokens", Json.num 4),
    ("totalTokens", Json.num 17), ("costUSD", Json.num cost), ("models", Json.obj [])]

/-- The DailyEntry value that mk_daily_json decodes to. -/
def mk_daily (date : String) (cost : ℚ) : DailyEntry :=
  ⟨date, 10, 3, 4, 17, cost, []⟩

/-- A state whose cache holds a previously fetched snapshot. -/
def sample_state : AppState := ⟨⟨some (mk_block ("s") 4 true), some 0, true⟩, false⟩

/-- A state with a fetch currently in flight. -/
def refreshing_state : AppState := ⟨⟨none, some 0, true⟩, true⟩

/-- The state after a startup refresh whose only invocation failed to spawn:
a completed but entirely unsuccessful fetch round. -/
def failed_once_state : AppState :=
  refresh_session_data ("d") [CmdOutcome.spawnError] 0 ⟨⟨none, none, false⟩, false⟩

/-- Claim C1 counterexample: starting from a cache that holds a snapshot, a
refresh whose every invocation fails does not leave the stored snapshot
unchanged — the cached block is replaced by absence. -/
theorem c1_counterexample :
    sample_state.cache.active_block.isSome = true ∧
    ([CmdOutcome.spawnError].all (attempt_failed ("d"))) = true ∧
    (refresh_session_data ("d") [CmdOutcome.spawnError] 1 sample_state).cache.active_block
      ≠ sample_state.cache.active_block := by decide

/-- Claim C1 (amended): for every fetch that fails (every attempted invocation
cannot start, exits non-zero, or yields unparseable stdout), the refresh
operation overwrites the cache rather than retaining the previous snapshot:
the stored block becomes none, last_updated is set to the completion time, and
the availability flag is set false. -/
theorem c1_refresh_overwrites_cache_on_failure
    (st : AppState) (today : String) (outcomes : List CmdOutcome) (now : Nat)
    (h : outcomes.all (attempt_failed today) = true) :
    (refresh_session_data today outcomes now st).cache = ⟨none, some now, false⟩ := by
  simp [refresh_session_data, fetch_session_data_all_failed today outcomes h]

theorem c1_witness :
    ([CmdOutcome.spawnError, CmdOutcome.exitNonZero].all (attempt_failed ("d")) = true) ∧
    (refresh_session_data ("d") [CmdOutcome.spawnError, CmdOutcome.exitNonZero] 5
      sample_state).cache = ⟨none, some 5, false⟩ :=
  ⟨by decide,
   c1_refresh_overwrites_cache_on_failure sample_state ("d")
     [CmdOutcome.spawnError, CmdOutcome.exitNonZero] 5 (by decide)⟩

/-- Claim C2 counterexample: with a fetch in flight, a user-initiated refresh
trigger still starts a fetch — it is not dropped, because only the periodic
task consults the shared flag. -/
theorem c2_counterexample :
    refreshing_state.is_refreshing = true ∧
    trigger_starts_fetch refreshing_state Trigger.user_refresh = true := by decide

/-- Claim C2 (amended): the single-flight flag is consulted only by the
periodic timer task: a timer tick arriving while a fetch is in flight performs
no invocation, but a user-initiated refresh or the startup refresh always
starts a fetch, whatever the flag's state. -/
theorem c2_single_flight_timer_only (st : AppState) :
    (st.is_refreshing = true → trigger_starts_fetch st Trigger.timer_tick = false) ∧
    trigger_starts_fetch st Trigger.user_refresh = true ∧
    trigger_starts_fetch st Trigger.startup = true := by
  refine ⟨?_, rfl, rfl⟩
  intro h
  simp [trigger_starts_fetch, h]

theorem c2_witness :
    refreshing_state.is_refreshing = true ∧
    trigger_starts_fetch refreshing_state Trigger.timer_tick = false ∧
    trigger_starts_fetch refreshing_state Trigger.user_refresh = true :=
  ⟨rfl, (c2_single_flight_timer_only refreshing_state).1 rfl,
   (c2_single_flight_timer_only refreshing_state).2.1⟩

/-- Claim C8 counterexample: after a startup refresh in which every invocation
failed — so no successful fetch has ever completed — the cache records the
attempt, and the next periodic tick does start a fetch; the claim's
precondition of at least one successful fetch does not match the code, which
only requires a completed attempt. -/
theorem c8_counterexample :
    failed_once_state.cache.ccusage_available = false ∧
    failed_once_state.cache.active_block = none ∧
    trigger_starts_fetch failed_once_state Trigger.timer_tick = true := by decide

/-- Claim C8 (amended): a periodic timer tick starts a refresh exactly when no
fetch is in flight and the cache records at least one completed fetch attempt
(successful or not); every completed refresh, including a failed one, sets
last_updated and thereby enables future ticks.  Before the first attempt
completes, ticks perform no invocation; user-initiated and startup refreshes
are exempt from the precondition. -/
theorem c8_timer_gate (st : AppState) :
    (trigger_starts_fetch st Trigger.timer_tick = true ↔
      st.is_refreshing = false ∧ st.cache.last_updated.isSome = true) ∧
    (∀ today outcomes now,
      (refresh_session_data today outcomes now st).cache.last_updated = some now) := by
  constructor
  · simp [trigger_starts_fetch, Bool.and_eq_true, Bool.not_eq_true']
  · intro today outcomes now; rfl

theorem c8_witness :
    trigger_starts_fetch sample_state Trigger.timer_tick = true ∧
    (refresh_session_data ("d") [] 9 sample_state).cache.last_updated = some 9 :=
  ⟨(c8_timer_gate sample_state).1.mpr ⟨by decide, by decide⟩,
   (c8_timer_gate sample_state).2 ("d") [] 9⟩

theorem firstSome_eq_none_iff :
    ∀ (fs : List (Json → Option (Option BlockData))) (j : Json),
      firstSome fs j = none ↔ ∀ f ∈ fs, f j = none := by
  intro fs j
  induction fs with
  | nil => simp [firstSome]
  | cons f rest ih =>
    cases hf : f j with
    | some r => simp [firstSome, hf]
    | none => simp [firstSome, hf, ih]

/-- A JSON object carrying both a blocks array and a sessions array, with the
two arrays holding observably different blocks. -/
def c3_input : Json :=
  Json.obj [("blocks", Json.arr [mk_block_json ("from-blocks") 1 true]),
            ("sessions", Json.arr [mk_block_json ("from-sessions") 2 true])]

/-- Claim C3 counterexample: on an object carrying both a blocks array and a
sessions array, the blocks schema would parse, yet the adapter returns the
sessions-derived block — the sessions schema is attempted before the blocks
schema, not after it as the claim orders them. -/
theorem c3_counterexample :
    decodeBlocksResponse c3_input = some ⟨[mk_block ("from-blocks") 1 true]⟩ ∧
    parse_known_schemas ("d") (some c3_input) = some (some (mk_block ("from-sessions") 2 true)) ∧
    some (some (mk_block ("from-sessions") 2 true)) ≠
      some (some (mk_block ("from-blocks") 1 true)) := by decide

/-- Claim C3 (amended): the adapter attempts the recognized schemas in the
order daily object, sessions object, blocks object, bare block object, bare
array of blocks — sessions before blocks, unlike the claim's ordering —
stopping at the first schema that parses; an individual schema failure is not
an error, and the response counts as a parse error exactly when every schema
attempt fails. -/
theorem c3_schema_order (today : String) (j : Json) :
    parse_known_schemas today (some j) = firstSome (schema_attempts today) j ∧
    (parse_known_schemas today (some j) = none ↔ ∀ f ∈ schema_attempts today, f j = none) := by
  have heq : parse_known_schemas today (some j) = firstSome (schema_attempts today) j := by
    cases h1 : decodeDailyResponse j with
    | some r => simp [parse_known_schemas, firstSome, schema_attempts, h1]
    | none =>
      cases h2 : decodeSessionsResponse j with
      | some r => simp [parse_known_schemas, firstSome, schema_attempts, h1, h2]
      | none =>
        cases h3 : decodeBlocksResponse j with
        | some r => simp [parse_known_schemas, firstSome, schema_attempts, h1, h2, h3]
        | none =>
          cases h4 : decodeBlockData j with
          | some b => simp [parse_known_schemas, firstSome, schema_attempts, h1, h2, h3, h4]
          | none =>
            cases h5 : decodeVecBlockData j with
            | some l => simp [parse_known_schemas, firstSome, schema_attempts, h1, h2, h3, h4, h5]
            | none => simp [parse_known_schemas, firstSome, schema_attempts, h1, h2, h3, h4, h5]
  exact ⟨heq, by rw [heq]; exact firstSome_eq_none_iff (schema_attempts today) j⟩

theorem c3_witness :
    parse_known_schemas ("d") (some c3_input) = firstSome (schema_attempts ("d")) c3_input :=
  (c3_schema_order ("d") c3_input).1

/-- A daily response whose first entry is yesterday and whose second entry is
today. -/
def c4_input : Json :=
  Json.obj [("daily", Json.arr [mk_daily_json ("Oct 11, 2025") 5,
                                mk_daily_json ("Oct 12, 2025") 7])]

/-- The decoded form of c4_input. -/
def c4_response : DailyResponse :=
  ⟨[mk_daily ("Oct 11, 2025") 5, mk_daily ("Oct 12, 2025") 7]⟩

/-- Claim C4 counterexample: with a non-empty daily array whose first entry is
not today's date, the adapter does not return the first entry — it returns the
entry whose date matches today. -/
theorem c4_counterexample :
    parse_known_schemas ("Oct 12, 2025") (some c4_input)
      = some (some (daily_to_block (mk_daily ("Oct 12, 2025") 7))) ∧
    daily_to_block (mk_daily ("Oct 12, 2025") 7) ≠
      daily_to_block (mk_daily ("Oct 11, 2025") 5) := by decide

/-- Claim C4 (amended): for a response parsing as the daily schema, the
adapter returns the entry whose date equals the current local date (formatted
as the external tool formats dates), converted by daily_to_block; when no
entry matches today, it returns a synthesized zero-usage entry for today —
it does not take the first entry of the array. -/
theorem c4_daily_selects_today (today : String) (r : DailyResponse) (e : DailyEntry) :
    (r.daily.find? (fun d => d.date == today) = some e →
      daily_branch today r = daily_to_block e ∧ e ∈ r.daily ∧ e.date = today) ∧
    ((∀ x ∈ r.daily, x.date ≠ today) →
      daily_branch today r = daily_to_block (zero_daily today)) := by
  constructor
  · intro h
    refine ⟨by simp [daily_branch, h], List.mem_of_find?_eq_some h, ?_⟩
    have hp := List.find?_some h
    simpa [beq_iff_eq] using hp
  · intro hall
    have hn : r.daily.find? (fun d => d.date == today) = none := by
      rw [List.find?_eq_none]
      intro x hx
      simp only [beq_iff_eq]
      exact hall x hx
    simp [daily_branch, hn]

theorem c4_witness :
    daily_branch ("Oct 12, 2025") c4_response = daily_to_block (mk_daily ("Oct 12, 2025") 7) ∧
    mk_daily ("Oct 12, 2025") 7 ∈ c4_response.daily ∧
    (mk_daily ("Oct 12, 2025") 7).date = "Oct 12, 2025" :=
  (c4_daily_selects_today ("Oct 12, 2025") c4_response (mk_daily ("Oct 12, 2025") 7)).1
    (by decide)

/-- A blocks response whose first block is inactive and whose second block is
active. -/
def c5_input : Json :=
  Json.obj [("blocks", Json.arr [mk_block_json ("first") 1 false,
                                 mk_block_json ("second") 2 true])]

/-- Claim C5 counterexample: with a blocks array of two elements whose first
block is inactive, the adapter does not select the first block — it selects
the first active one. -/
theorem c5_counterexample :
    parse_known_schemas ("d") (some c5_input) = some (some (mk_block ("second") 2 true)) ∧
    mk_block ("second") 2 true ≠ mk_block ("first") 1 false := by decide

/-- Claim C5 (amended): for a session-window response (blocks array, sessions
array, or bare array), the adapter selects the first block whose is_active
flag is set, not the first block outright; when no block is active it selects
none (still a successful fetch). -/
theorem c5_selects_first_active (l : List BlockData) :
    (select_active l = none ↔ ∀ x ∈ l, x.is_active = false) ∧
    (∀ b, select_active l = some b →
      b.is_active = true ∧ ∃ pre post, l = pre ++ b :: post ∧ ∀ x ∈ pre, x.is_active = false) := by
  constructor
  · rw [select_active, List.find?_eq_none]
    simp [Bool.not_eq_true]
  · intro b h
    have h2 : l.find? (fun x => x.is_active) = some b := h
    exact find?_first_decomp (fun x => x.is_active) l b h2

theorem c5_witness :
    (mk_block ("second") 2 true).is_active = true ∧
    ∃ pre post,
      [mk_block ("first") 1 false, mk_block ("second") 2 true]
        = pre ++ (mk_block ("second") 2 true) :: post ∧
      ∀ x ∈ pre, x.is_active = false :=
  (c5_selects_first_active [mk_block ("first") 1 false, mk_block ("second") 2 true]).2
    (mk_block ("second") 2 true) (by decide)

theorem list_map_self {A B : Type} (f : A → B) (g : B → A) (h : ∀ x, g (f x) = x) :
    ∀ l : List A, (l.map f).map g = l := by
  intro l
  induction l with
  | nil => rfl
  | cons a rest ih => simp [h, ih]

/-- Claim C6: for a block listing n models and carrying no per-model
breakdown, every estimated entry receives the block's total cost divided by n
(rational division, modelling the f64 division) and each token count divided
by n with truncating natural division, and the entries are in bijection with
the listed models.  The estimation is spec-modelled (absent from src/). -/
theorem c6_estimate_even_division (b : BlockData) :
    ((estimate_breakdown b).map (fun e => e.model) = b.models) ∧
    (∀ e ∈ estimate_breakdown b,
      e.cost = b.cost_usd / (b.models.length : ℚ) ∧
      e.input_tokens = b.token_counts.input_tokens / b.models.length ∧
      e.output_tokens = b.token_counts.output_tokens / b.models.length ∧
      e.cache_creation_tokens = b.token_counts.cache_creation_input_tokens / b.models.length ∧
      e.cache_read_tokens = b.token_counts.cache_read_input_tokens / b.models.length) := by
  constructor
  · exact list_map_self _ (fun e : ModelBreakdown => e.model) (fun x => rfl) b.models
  · intro e he
    simp only [estimate_breakdown, List.mem_map] at he
    obtain ⟨m, _, rfl⟩ := he
    exact ⟨rfl, rfl, rfl, rfl, rfl⟩

/-- A block with total cost 9 USD, three listed models, and no breakdown. -/
def c6_block : BlockData := ⟨"b", "", "", true, ⟨10, 20, 7, 5⟩, 9, ["a", "b", "c"]⟩

/-- The first estimated entry for c6_block, written with the divisions
unevaluated. -/
def c6_entry : ModelBreakdown := ⟨"a", 10 / 3, 20 / 3, 7 / 3, 5 / 3, 9 / (3 : ℚ)⟩

theorem c6_witness :
    c6_entry ∈ estimate_breakdown c6_block ∧
    (c6_entry.cost = c6_block.cost_usd / (c6_block.models.length : ℚ) ∧
     c6_entry.input_tokens = c6_block.token_counts.input_tokens / c6_block.models.length ∧
     c6_entry.output_tokens = c6_block.token_counts.output_tokens / c6_block.models.length ∧
     c6_entry.cache_creation_tokens
       = c6_block.token_counts.cache_creation_input_tokens / c6_block.models.length ∧
     c6_entry.cache_read_tokens
       = c6_block.token_counts.cache_read_input_tokens / c6_block.models.length) ∧
    c6_entry.cost = 3 ∧ c6_entry.input_tokens = 3 := by
  have hmem : c6_entry ∈ estimate_breakdown c6_block := List.mem_cons_self _ _
  refine ⟨hmem, (c6_estimate_even_division c6_block).2 c6_entry hmem, ?_, by decide⟩
  show (9 : ℚ) / 3 = 3
  norm_num

/-- Claim C7: the aggregator's output for a model identifier is exactly the
componentwise arithmetic sum of that model's entries across all buckets; a
model mentioned in no bucket is absent from the output; and permuting the
bucket sequence leaves the per-model result unchanged (exactly, since costs
are modelled as rationals).  The Aggregator is spec-modelled (absent from
src/). -/
theorem c7_aggregate_sums (bs : List ReportingBucket) (m : String) :
    ((aggregate bs).lookup m = none ↔ ∀ b ∈ bs, ∀ e ∈ b.breakdowns, e.model ≠ m) ∧
    (∀ v, (aggregate bs).lookup m = some v →
      v = sumFor m ((flat_entries bs).filter fun e => e.model == m)) ∧
    (∀ bs2, List.Perm bs bs2 →
      (aggregate bs).lookup m = (aggregate bs2).lookup m) := by
  refine ⟨?_, ?_, ?_⟩
  · have hiff : ((aggregate bs).lookup m = none) ↔
        ((flat_entries bs).filter fun e => e.model == m) = [] := by
      rw [aggregate_lookup_eq bs m]
      by_cases hf : ((flat_entries bs).filter fun e => e.model == m) = []
      · simp [hf]
      · simp [hf]
    rw [hiff, List.filter_eq_nil_iff]
    constructor
    · intro h b hb e he
      have hmem : e ∈ flat_entries bs := by
        rw [flat_entries, List.mem_flatten]
        exact ⟨b.breakdowns, List.mem_map.mpr ⟨b, hb, rfl⟩, he⟩
      simpa [beq_iff_eq] using h e hmem
    · intro h a ha
      rw [flat_entries, List.mem_flatten] at ha
      obtain ⟨l, hl, hal⟩ := ha
      obtain ⟨b, hb, rfl⟩ := List.mem_map.mp hl
      simpa [beq_iff_eq] using h b hb a hal
  · intro v hv
    rw [aggregate_lookup_eq bs m] at hv
    by_cases hf : ((flat_entries bs).filter fun e => e.model == m) = []
    · rw [if_pos hf] at hv
      cases hv
    · rw [if_neg hf] at hv
      injection hv with h
      exact h.symm
  · intro bs2 hperm
    have hflat : List.Perm (flat_entries bs) (flat_entries bs2) :=
      List.Perm.flatten (List.Perm.map _ hperm)
    have hfilt : List.Perm ((flat_entries bs).filter fun e => e.model == m)
        ((flat_entries bs2).filter fun e => e.model == m) :=
      List.Perm.filter _ hflat
    rw [aggregate_lookup_eq bs m, aggregate_lookup_eq bs2 m]
    by_cases hf : ((flat_entries bs).filter fun e => e.model == m) = []
    · have hf2 : ((flat_entries bs2).filter fun e => e.model == m) = [] := by
        rw [hf] at hfilt
        exact hfilt.symm.eq_nil
      rw [if_pos hf, if_pos hf2]
    · have hf2 : ¬ ((flat_entries bs2).filter fun e => e.model == m) = [] := by
        intro hc
        apply hf
        rw [hc] at hfilt
        exact hfilt.eq_nil
      rw [if_neg hf, if_neg hf2]
      congr 1
      simp only [sumFor, ModelBreakdown.mk.injEq, true_and]
      refine ⟨?_, ?_, ?_, ?_, ?_⟩ <;> exact List.Perm.sum_eq (List.Perm.map _ hfilt)

/-- A bucket mentioning only model a. -/
def c7_b1 : ReportingBucket := ⟨[⟨"a", 1, 2, 3, 4, 5⟩]⟩

/-- A bucket mentioning only model z. -/
def c7_b2 : ReportingBucket := ⟨[⟨"z", 9, 9, 9, 9, 9⟩]⟩

theorem c7_witness :
    (⟨"a", 1, 2, 3, 4, 5⟩ : ModelBreakdown)
        = sumFor ("a") ((flat_entries [c7_b1, c7_b2]).filter fun e => e.model == "a") ∧
    (aggregate [c7_b1, c7_b2]).lookup ("a") = (aggregate [c7_b2, c7_b1]).lookup ("a") :=
  ⟨(c7_aggregate_sums [c7_b1, c7_b2] ("a")).2.1 (⟨"a", 1, 2, 3, 4, 5⟩ : ModelBreakdown)
     (by decide),
   (c7_aggregate_sums [c7_b1, c7_b2] ("a")).2.2 [c7_b2, c7_b1] (List.Perm.swap c7_b2 c7_b1 [])⟩

theorem lookup_mem_pairs {β : Type} :
    ∀ (l : List (String × β)) (m : String) (v : β), l.lookup m = some v → (m, v) ∈ l := by
  intro l
  induction l with
  | nil => intro m v h; cases h
  | cons kv rest ih =>
    intro m v h
    obtain ⟨k, w⟩ := kv
    by_cases hk : m = k
    · subst hk
      have hb : (m == m) = true := by simp
      simp only [List.lookup, hb] at h
      injection h with h2
      rw [h2]
      exact List.mem_cons_self _ _
    · have hb : (m == k) = false := beq_eq_false_iff_ne.mpr hk
      simp only [List.lookup, hb] at h
      exact List.mem_cons_of_mem _ (ih m v h)

/-- Claim C9: format_model_name first consults the exact-match table; with no
exact entry it falls back to substring matching on the family keywords (opus,
sonnet, haiku, gpt-5-codex); with no keyword match it returns the raw
identifier (the source's trailing equality arm for gpt-5 is dead there, since
gpt-5 is in the exact table). -/
theorem c9_format_model_name_tiers (m : String) :
    (∀ v, exact_table.lookup m = some v → format_model_name m = v) ∧
    (exact_table.lookup m = none →
      format_model_name m =
        if strContains m ("opus") then ("Opus")
        else if strContains m ("sonnet") then ("Sonnet")
        else if strContains m ("haiku") then ("Haiku")
        else if strContains m ("gpt-5-codex") then ("GPT-5 Codex")
        else m) := by
  constructor
  · intro v hv
    have hmem := lookup_mem_pairs exact_table m v hv
    simp only [exact_table, List.mem_cons, List.mem_singleton, Prod.mk.injEq,
      List.not_mem_nil, or_false] at hmem
    rcases hmem with ⟨rfl, rfl⟩ | ⟨rfl, rfl⟩ | ⟨rfl, rfl⟩ | ⟨rfl, rfl⟩ | ⟨rfl, rfl⟩ | ⟨rfl, rfl⟩
    · decide
    · decide
    · decide
    · decide
    · decide
    · decide
  · intro hn
    have h1 : m ≠ ("claude-opus-4-20250514") := by
      intro hc; subst hc; exact absurd hn (by decide)
    have h2 : m ≠ ("claude-sonnet-4-20250514") := by
      intro hc; subst hc; exact absurd hn (by decide)
    have h3 : m ≠ ("claude-3-5-sonnet-20241022") := by
      intro hc; subst hc; exact absurd hn (by decide)
    have h4 : m ≠ ("claude-3-haiku-20240307") := by
      intro hc; subst hc; exact absurd hn (by decide)
    have h5 : m ≠ ("gpt-5-codex") := by
      intro hc; subst hc; exact absurd hn (by decide)
    have h6 : m ≠ ("gpt-5") := by
      intro hc; subst hc; exact absurd hn (by decide)
    simp only [format_model_name, if_neg h1, if_neg h2, if_neg h3, if_neg h4, if_neg h5,
      if_neg h6]

theorem c9_witness :
    format_model_name ("claude-3-haiku-20240307") = "Haiku" ∧
    format_model_name ("gpt-5") = "GPT-5" ∧
    format_model_name ("my-opus-test") = "Opus" ∧
    format_model_name ("mystery-model") = "mystery-model" := by
  refine ⟨(c9_format_model_name_tiers ("claude-3-haiku-20240307")).1 ("Haiku") (by decide),
          (c9_format_model_name_tiers ("gpt-5")).1 ("GPT-5") (by decide), ?_, ?_⟩
  · rw [(c9_format_model_name_tiers ("my-opus-test")).2 (by decide)]
    decide
  · rw [(c9_format_model_name_tiers ("mystery-model")).2 (by decide)]
    decide

/-- Claim C10: daily_to_block sets cache-creation tokens to 0, attributes the
whole cached-input count to the cache-read field, copies input and output
counts and the cost, sets the active flag, builds the id as daily- followed by
the date, leaves both times empty, and lists the entry's model identifiers
sorted ascending. -/
theorem c10_daily_to_block_shape (e : DailyEntry) :
    (daily_to_block e).token_counts.cache_creation_input_tokens = 0 ∧
    (daily_to_block e).token_counts.cache_read_input_tokens = e.cached_input_tokens ∧
    (daily_to_block e).token_counts.input_tokens = e.input_tokens ∧
    (daily_to_block e).token_counts.output_tokens = e.output_tokens ∧
    (daily_to_block e).is_active = true ∧
    (daily_to_block e).id = "daily-" ++ e.date ∧
    (daily_to_block e).start_time = "" ∧
    (daily_to_block e).end_time = "" ∧
    (daily_to_block e).cost_usd = e.cost_usd ∧
    List.Perm (daily_to_block e).models (e.models.map Prod.fst) ∧
    List.Sorted (fun a b => a ≤ b) (daily_to_block e).models := by
  refine ⟨rfl, rfl, rfl, rfl, rfl, rfl, rfl, rfl, rfl, ?_, ?_⟩
  · exact List.perm_insertionSort _ _
  · exact List.sorted_insertionSort _ _
